import Mathlib

/-!
Shallow embedding of the Activepieces flow-run orchestration engine:
the run lifecycle manager (`flow-run-service`), the synchronous-response
router (`returnHandlerId`), the execution-log store (`updateLogs`), and
the trigger hook engine (`triggerHelper.executeTrigger`).

External collaborators (TypeORM repository, job queue, webhook response
watcher, piece loader, log serializer, cron validator library) are
modelled explicitly: the run store and job queue as explicit state,
fresh identifiers and the server identity as parameters.
-/

/-- Pause variant tags (`PauseType` in the shared package). -/
inductive PauseType
  | DELAY
  | WEBHOOK
  deriving DecidableEq, Repr

/-- Flow-run lifecycle states (`FlowRunStatus`). -/
inductive FlowRunStatus
  | RUNNING
  | PAUSED
  | SUCCEEDED
  | FAILED
  | STOPPED
  | INTERNAL_ERROR
  deriving DecidableEq, Repr

/-- Run environment (`RunEnvironment`). -/
inductive RunEnvironment
  | PRODUCTION
  | TESTING
  deriving DecidableEq, Repr

/-- Execution kind handed to the worker (`ExecutionType`). -/
inductive ExecutionType
  | BEGIN
  | RESUME
  deriving DecidableEq, Repr

/-- Progress-update mode (`ProgressUpdateType`). -/
inductive ProgressUpdateType
  | NONE
  | TEST_FLOW
  | WEBHOOK_RESPONSE
  deriving DecidableEq, Repr

/-- Tagged pause metadata: `{ type: DELAY, resumeDateTime }` or
`{ type: WEBHOOK, requestId, handlerId? }`.  The handler id is optional
in the source type, hence `Option String` here. -/
inductive PauseMetadata
  | delay (resumeDateTime : String)
  | webhook (requestId : String) (handlerId : Option String)
  deriving DecidableEq, Repr

/-- The `type` discriminant of a pause metadata value. -/
def PauseMetadata.ptype : PauseMetadata → PauseType
  | .delay _ => .DELAY
  | .webhook _ _ => .WEBHOOK

/-- JavaScript truthiness of an optional string: `undefined` and the
empty string are falsy, every other string is truthy. -/
def strTruthy : Option String → Bool
  | none => false
  | some s => !s.isEmpty

/-- The flow-run record persisted by the run store (`FlowRun` entity);
fields not touched by the embedded operations are omitted. -/
structure FlowRun where
  id : String
  projectId : String
  flowId : String
  flowVersionId : String
  environment : RunEnvironment
  flowDisplayName : String
  startTime : String
  status : FlowRunStatus
  pauseMetadata : Option PauseMetadata
  logsFileId : Option String
  tasks : Nat
  duration : Option Nat
  tags : List String
  terminationReason : Option String
  finishTime : Option String
  deriving DecidableEq, Repr

/-- Embeds `returnHandlerId` (flow-run-service): the synchronous-response
router.  `serverId` is `webhookResponseWatcher.getServerId()`; the stored
handler id is returned only when the pause is WEBHOOK-typed, the supplied
request id strictly equals the stored one, and the stored handler id is
truthy. -/
def returnHandlerId (serverId : String) (pauseMetadata : Option PauseMetadata)
    (requestId : Option String) : String :=
  match pauseMetadata with
  | none => serverId
  | some pm =>
    match pm with
    | .delay _ => serverId
    | .webhook rid hid =>
      if requestId == some rid && strTruthy hid then hid.getD serverId else serverId

example : returnHandlerId "srv" (some (.webhook "abc" (some "h7"))) (some "abc") = "h7" := by
  decide

example : returnHandlerId "srv" (some (.webhook "abc" (some "h7"))) (some "xyz") = "srv" := by
  decide

example : returnHandlerId "srv" (some (.delay "t")) (some "abc") = "srv" := by
  decide

/-- Flow version record, as consumed from `flowVersionService`. -/
structure FlowVersion where
  id : String
  flowId : String
  displayName : String
  deriving DecidableEq, Repr

/-- Flow record, as consumed from `flowService`. -/
structure FlowRecord where
  id : String
  projectId : String
  deriving DecidableEq, Repr

/-- The external collaborators of the run lifecycle manager: the flow and
flow-version stores, the process-wide server identity
(`webhookResponseWatcher.getServerId()`), and the fresh id / clock values
an invocation would draw (`apId()`, `new Date().toISOString()`). -/
structure Collaborators where
  flowVersions : List FlowVersion
  flows : List FlowRecord
  serverId : String
  freshRunId : String
  now : String
  deriving DecidableEq, Repr

/-- One job handed to the external queue by `flowRunSideEffects.start`. -/
structure QueueJob where
  flowRunId : String
  payload : Option String
  synchronousHandlerId : Option String
  httpRequestId : Option String
  executionType : ExecutionType
  progressUpdateType : ProgressUpdateType
  deriving DecidableEq, Repr

/-- The state the run lifecycle manager acts on: the run store
(`flowRunRepo`) and the external job queue, as the ordered list of jobs
enqueued so far. -/
structure EngineState where
  runs : List FlowRun
  queue : List QueueJob
  deriving DecidableEq, Repr

/-- Typed errors thrown by the embedded operations (`ActivepiecesError`). -/
inductive ApError
  | flowRunNotFound (id : String)
  | flowVersionNotFound (id : String)
  | flowNotFound (id : String)
  deriving DecidableEq, Repr

/-- Embeds `flowRunRepo().findOneBy({ id })`: first record with the id. -/
def findRunById (runs : List FlowRun) (id : String) : Option FlowRun :=
  runs.find? (fun r => r.id == id)

/-- Embeds `flowRunRepo().save(run)`: overwrite the records carrying the
run's id when present, append otherwise. -/
def saveRun (runs : List FlowRun) (r : FlowRun) : List FlowRun :=
  if runs.any (fun x => x.id == r.id) then
    runs.map (fun x => if x.id == r.id then r else x)
  else
    runs ++ [r]

/-- Embeds `flowRunService.getOneOrThrow`: `findOneBy({ projectId, id })`
throwing `FLOW_RUN_NOT_FOUND` when no record matches.  An `undefined`
project id (as passed by `getOnePopulatedOrThrow`) places no constraint. -/
def getOneOrThrow (runs : List FlowRun) (id : String) (projectId : Option String) :
    Except ApError FlowRun :=
  match runs.find? (fun r => r.id == id &&
      (match projectId with | none => true | some p => r.projectId == p)) with
  | none => .error (.flowRunNotFound id)
  | some r => .ok r

/-- Embeds `getFlowRunOrCreate`: reuse the existing record when an id is
supplied (validating project ownership), otherwise build a fresh record
with a fresh id and the current time as start time. -/
def getFlowRunOrCreate (runs : List FlowRun) (id : Option String)
    (projectId flowId flowVersionId : String) (environment : RunEnvironment)
    (flowDisplayName freshId now : String) : Except ApError FlowRun :=
  match id with
  | some i => getOneOrThrow runs i (some projectId)
  | none =>
    .ok { id := freshId, projectId := projectId, flowId := flowId,
          flowVersionId := flowVersionId, environment := environment,
          flowDisplayName := flowDisplayName, startTime := now,
          status := .RUNNING, pauseMetadata := none, logsFileId := none,
          tasks := 0, duration := none, tags := [],
          terminationReason := none, finishTime := none }

/-- Parameters of `flowRunService.start` (`StartParams`). -/
structure StartParams where
  projectId : String
  flowVersionId : String
  flowRunId : Option String
  environment : RunEnvironment
  payload : Option String
  synchronousHandlerId : Option String
  httpRequestId : Option String
  progressUpdateType : ProgressUpdateType
  executionType : ExecutionType
  deriving DecidableEq, Repr

/-- Embeds `flowRunService.start`: resolve the flow version and the flow,
get or create the run record, set its status to RUNNING, save it, and hand
exactly one job to the external queue (`flowRunSideEffects.start`).
Telemetry is fire-and-forget with no effect on this state. -/
def flowRunStart (env : Collaborators) (st : EngineState) (p : StartParams) :
    Except ApError (EngineState × FlowRun) :=
  match env.flowVersions.find? (fun v => v.id == p.flowVersionId) with
  | none => .error (.flowVersionNotFound p.flowVersionId)
  | some flowVersion =>
    match env.flows.find? (fun f => f.id == flowVersion.flowId && f.projectId == p.projectId) with
    | none => .error (.flowNotFound flowVersion.flowId)
    | some flow =>
      match getFlowRunOrCreate st.runs p.flowRunId flow.projectId flowVersion.flowId
          flowVersion.id p.environment flowVersion.displayName env.freshRunId env.now with
      | .error e => .error e
      | .ok flowRun0 =>
        let flowRun := { flowRun0 with status := FlowRunStatus.RUNNING }
        let job : QueueJob :=
          { flowRunId := flowRun.id, payload := p.payload,
            synchronousHandlerId := p.synchronousHandlerId,
            httpRequestId := p.httpRequestId,
            executionType := p.executionType,
            progressUpdateType := p.progressUpdateType }
        .ok ({ runs := saveRun st.runs flowRun, queue := st.queue ++ [job] }, flowRun)

/-- The resume gate computed by `addToQueue`: the stored pause metadata is
nil, or it is WEBHOOK-typed and the supplied request id strictly equals
the stored one. -/
def resumeMatches (pauseMetadata : Option PauseMetadata) (requestId : Option String) : Bool :=
  pauseMetadata.isNone ||
    (match pauseMetadata with
     | some (PauseMetadata.webhook rid _) => requestId == some rid
     | _ => false)

/-- Embeds `flowRunService.addToQueue`: load the run, and when the resume
gate passes hand it to `start` with execution kind as supplied, the
routed synchronous handler id and a PRODUCTION environment; otherwise do
nothing. -/
def addToQueue (env : Collaborators) (st : EngineState) (flowRunId : String)
    (requestId : Option String) (payload : Option String)
    (progressUpdateType : ProgressUpdateType) (executionType : ExecutionType) :
    Except ApError EngineState :=
  match findRunById st.runs flowRunId with
  | none => .error (.flowRunNotFound flowRunId)
  | some flowRunToResume =>
    if resumeMatches flowRunToResume.pauseMetadata requestId then
      match flowRunStart env st
          { projectId := flowRunToResume.projectId,
            flowVersionId := flowRunToResume.flowVersionId,
            flowRunId := some flowRunToResume.id,
            environment := .PRODUCTION,
            payload := payload,
            synchronousHandlerId :=
              some (returnHandlerId env.serverId flowRunToResume.pauseMetadata requestId),
            httpRequestId := requestId,
            progressUpdateType := progressUpdateType,
            executionType := executionType } with
      | .error e => .error e
      | .ok (st2, _) => .ok st2
    else
      .ok st

/-- Embeds `flowRunService.pause`: set status PAUSED and store the pause
metadata verbatim, then re-read the record (`findOneByOrFail`). -/
def flowRunPause (st : EngineState) (flowRunId : String) (pm : PauseMetadata) :
    Except ApError EngineState :=
  let runs2 := st.runs.map (fun r =>
    if r.id == flowRunId then
      { r with status := FlowRunStatus.PAUSED, pauseMetadata := some pm }
    else r)
  match findRunById runs2 flowRunId with
  | none => .error (.flowRunNotFound flowRunId)
  | some _ => .ok { st with runs := runs2 }

theorem findRunById_id (i : String) :
    ∀ (runs : List FlowRun) (run : FlowRun), findRunById runs i = some run → run.id = i := by
  intro runs
  induction runs with
  | nil => intro run h; simp [findRunById] at h
  | cons x xs ih =>
    intro run h
    cases hx : (x.id == i) with
    | true =>
      simp only [findRunById, List.find?, hx] at h
      cases h
      exact eq_of_beq hx
    | false =>
      simp only [findRunById, List.find?, hx] at h
      exact ih run h

theorem find?_strengthen (p : FlowRun → Bool) (i : String) :
    ∀ (runs : List FlowRun) (run : FlowRun),
      findRunById runs i = some run → p run = true →
      runs.find? (fun r => r.id == i && p r) = some run := by
  intro runs
  induction runs with
  | nil => intro run h _; simp [findRunById] at h
  | cons x xs ih =>
    intro run h hp
    cases hx : (x.id == i) with
    | true =>
      simp only [findRunById, List.find?, hx] at h
      cases h
      simp [List.find?, hx, hp]
    | false =>
      simp only [findRunById, List.find?, hx] at h
      simp only [List.find?, hx, Bool.false_and]
      exact ih run h hp

theorem findRunById_map_replace (i : String) (r2 : FlowRun) (hr2 : r2.id = i) :
    ∀ (runs : List FlowRun) (run : FlowRun), findRunById runs i = some run →
      findRunById (runs.map (fun x => if x.id == r2.id then r2 else x)) i = some r2 := by
  intro runs
  induction runs with
  | nil => intro run h; simp [findRunById] at h
  | cons x xs ih =>
    intro run h
    cases hx : (x.id == i) with
    | true =>
      have hxr2 : (x.id == r2.id) = true := by rw [hr2]; exact hx
      have hr2b : (r2.id == i) = true := by rw [hr2]; simp
      simp only [List.map_cons, hxr2, if_true, findRunById, List.find?, hr2b]
    | false =>
      simp only [findRunById, List.find?, hx] at h
      have hxr2 : (x.id == r2.id) = false := by rw [hr2]; exact hx
      simp only [List.map_cons, hxr2, Bool.false_eq_true, if_false, findRunById, List.find?, hx]
      exact ih run h

theorem findRunById_any (i : String) :
    ∀ (runs : List FlowRun) (run : FlowRun), findRunById runs i = some run →
      runs.any (fun x => x.id == i) = true := by
  intro runs
  induction runs with
  | nil => intro run h; simp [findRunById] at h
  | cons x xs ih =>
    intro run h
    cases hx : (x.id == i) with
    | true => simp [List.any_cons, hx]
    | false =>
      simp only [findRunById, List.find?, hx] at h
      simp [List.any_cons, hx, ih run h]

theorem findRunById_saveRun {runs : List FlowRun} {i : String} {run : FlowRun}
    (r2 : FlowRun) (hr2 : r2.id = i) (h : findRunById runs i = some run) :
    findRunById (saveRun runs r2) i = some r2 := by
  unfold saveRun
  have hany : runs.any (fun x => x.id == r2.id) = true := by
    rw [hr2]; exact findRunById_any i runs run h
  rw [if_pos hany]
  exact findRunById_map_replace i r2 hr2 runs run h

theorem addToQueue_resume_ok
    (env : Collaborators) (st : EngineState) (flowRunId : String)
    (requestId : Option String) (payload : Option String)
    (put : ProgressUpdateType) (et : ExecutionType)
    (run : FlowRun) (fv : FlowVersion) (fl : FlowRecord)
    (hrun : findRunById st.runs flowRunId = some run)
    (hfv : env.flowVersions.find? (fun v => v.id == run.flowVersionId) = some fv)
    (hfl : env.flows.find? (fun f => f.id == fv.flowId && f.projectId == run.projectId) = some fl)
    (hm : resumeMatches run.pauseMetadata requestId = true) :
    addToQueue env st flowRunId requestId payload put et =
      .ok { runs := saveRun st.runs { run with status := FlowRunStatus.RUNNING },
            queue := st.queue ++
              [{ flowRunId := run.id, payload := payload,
                 synchronousHandlerId :=
                   some (returnHandlerId env.serverId run.pauseMetadata requestId),
                 httpRequestId := requestId, executionType := et,
                 progressUpdateType := put }] } := by
  have hid : run.id = flowRunId := findRunById_id flowRunId st.runs run hrun
  have hflp : fl.projectId = run.projectId := by
    have h2 := List.find?_some hfl
    simp only [Bool.and_eq_true, beq_iff_eq] at h2
    exact h2.2
  have hfind : st.runs.find? (fun r => r.id == run.id && (r.projectId == run.projectId)) =
      some run := by
    rw [hid]
    exact find?_strengthen (fun r => r.projectId == run.projectId) flowRunId st.runs run hrun
      (by simp)
  simp only [addToQueue, hrun, hm, if_true]
  simp only [flowRunStart, hfv, hfl]
  simp only [getFlowRunOrCreate, getOneOrThrow, hflp]
  rw [hfind]

/-- C1: a call to `addToQueue` on an existing run proceeds to `start`
(persisting status RUNNING and enqueueing exactly one execution) exactly
when the stored pause metadata is nil or is WEBHOOK-typed with the
supplied request id equal to the stored one; in every other case the call
is a no-op: the state is untouched, the run stays PAUSED and nothing is
enqueued. -/
theorem c1_addToQueue_gate
    (env : Collaborators) (st : EngineState) (flowRunId : String)
    (requestId : Option String) (payload : Option String)
    (put : ProgressUpdateType) (et : ExecutionType)
    (run : FlowRun) (fv : FlowVersion) (fl : FlowRecord)
    (hrun : findRunById st.runs flowRunId = some run)
    (hpaused : run.status = FlowRunStatus.PAUSED)
    (hfv : env.flowVersions.find? (fun v => v.id == run.flowVersionId) = some fv)
    (hfl : env.flows.find? (fun f => f.id == fv.flowId && f.projectId == run.projectId) = some fl) :
    (resumeMatches run.pauseMetadata requestId = true →
       addToQueue env st flowRunId requestId payload put et =
         .ok { runs := saveRun st.runs { run with status := FlowRunStatus.RUNNING },
               queue := st.queue ++
                 [{ flowRunId := run.id, payload := payload,
                    synchronousHandlerId :=
                      some (returnHandlerId env.serverId run.pauseMetadata requestId),
                    httpRequestId := requestId, executionType := et,
                    progressUpdateType := put }] } ∧
       findRunById (saveRun st.runs { run with status := FlowRunStatus.RUNNING }) flowRunId =
         some { run with status := FlowRunStatus.RUNNING }) ∧
    (resumeMatches run.pauseMetadata requestId = false →
       addToQueue env st flowRunId requestId payload put et = .ok st ∧
       findRunById st.runs flowRunId = some run ∧ run.status = FlowRunStatus.PAUSED) := by
  constructor
  · intro hm
    refine ⟨addToQueue_resume_ok env st flowRunId requestId payload put et run fv fl
      hrun hfv hfl hm, ?_⟩
    exact findRunById_saveRun { run with status := FlowRunStatus.RUNNING }
      (by simpa using findRunById_id flowRunId st.runs run hrun) hrun
  · intro hm
    refine ⟨?_, hrun, hpaused⟩
    simp only [addToQueue, hrun, hm]
    simp

/-- Concrete paused run used to exercise the resume path at a concrete
input. -/
def pausedRunExample : FlowRun :=
  { id := "r1", projectId := "p1", flowId := "f1", flowVersionId := "v1",
    environment := .PRODUCTION, flowDisplayName := "Order flow",
    startTime := "t0", status := .PAUSED,
    pauseMetadata := some (.webhook "abc" (some "h7")),
    logsFileId := none, tasks := 3, duration := none, tags := [],
    terminationReason := none, finishTime := none }

/-- Concrete collaborators for the resume examples. -/
def collabExample : Collaborators :=
  { flowVersions := [{ id := "v1", flowId := "f1", displayName := "Order flow" }],
    flows := [{ id := "f1", projectId := "p1" }],
    serverId := "srv", freshRunId := "fresh1", now := "t1" }

/-- Concrete engine state holding only the paused run. -/
def pausedStateExample : EngineState :=
  { runs := [pausedRunExample], queue := [] }

/-- Witness for C1 at the concrete paused run: the matching request id
resumes, and a mismatching request id is a no-op. -/
theorem c1_addToQueue_gate_witness :
    (addToQueue collabExample pausedStateExample "r1" (some "abc") none
        ProgressUpdateType.NONE ExecutionType.RESUME =
      .ok { runs := saveRun pausedStateExample.runs
              { pausedRunExample with status := FlowRunStatus.RUNNING },
            queue := [{ flowRunId := "r1", payload := none,
                        synchronousHandlerId := some "h7",
                        httpRequestId := some "abc",
                        executionType := ExecutionType.RESUME,
                        progressUpdateType := ProgressUpdateType.NONE }] }) ∧
    (addToQueue collabExample pausedStateExample "r1" (some "xyz") none
        ProgressUpdateType.NONE ExecutionType.RESUME = .ok pausedStateExample) := by
  have h := c1_addToQueue_gate collabExample pausedStateExample "r1" (some "abc") none
    ProgressUpdateType.NONE ExecutionType.RESUME pausedRunExample
    { id := "v1", flowId := "f1", displayName := "Order flow" }
    { id := "f1", projectId := "p1" }
    (by decide) (by decide) (by decide) (by decide)
  have h2 := c1_addToQueue_gate collabExample pausedStateExample "r1" (some "xyz") none
    ProgressUpdateType.NONE ExecutionType.RESUME pausedRunExample
    { id := "v1", flowId := "f1", displayName := "Order flow" }
    { id := "f1", projectId := "p1" }
    (by decide) (by decide) (by decide) (by decide)
  constructor
  · have := (h.1 (by decide)).1
    rw [this]
    exact congrArg Except.ok (by decide)
  · exact ((h2.2 (by decide)).1)

/-- C2 counterexample: resuming the concrete paused run with the matching
request id succeeds and persists status RUNNING, yet the persisted record
still carries the WEBHOOK pause metadata — `start` never clears
`pauseMetadata`, refuting the claim that after a resume the persisted run
record has no pause metadata. -/
theorem c2_counterexample :
    (addToQueue collabExample pausedStateExample "r1" (some "abc") none
        ProgressUpdateType.NONE ExecutionType.RESUME).toOption.map
      (fun st2 => (findRunById st2.runs "r1").map
        (fun r => (r.status, r.pauseMetadata))) =
    some (some (FlowRunStatus.RUNNING, some (PauseMetadata.webhook "abc" (some "h7")))) := by
  decide

/-- C2 (amended): resuming a paused run transitions its persisted status
back to RUNNING before re-queueing and enqueues one execution, but it
does not clear `pauseMetadata`: the persisted record after the resume
retains exactly the pause metadata stored at pause time. -/
theorem c2_resume_keeps_pauseMetadata
    (env : Collaborators) (st : EngineState) (flowRunId : String)
    (requestId : Option String) (payload : Option String)
    (put : ProgressUpdateType) (et : ExecutionType)
    (run : FlowRun) (fv : FlowVersion) (fl : FlowRecord)
    (hrun : findRunById st.runs flowRunId = some run)
    (hfv : env.flowVersions.find? (fun v => v.id == run.flowVersionId) = some fv)
    (hfl : env.flows.find? (fun f => f.id == fv.flowId && f.projectId == run.projectId) = some fl)
    (hm : resumeMatches run.pauseMetadata requestId = true) :
    ∃ st2 : EngineState,
      addToQueue env st flowRunId requestId payload put et = .ok st2 ∧
      (∃ job : QueueJob, st2.queue = st.queue ++ [job]) ∧
      findRunById st2.runs flowRunId = some { run with status := FlowRunStatus.RUNNING } ∧
      (∀ r2 : FlowRun, findRunById st2.runs flowRunId = some r2 →
        r2.status = FlowRunStatus.RUNNING ∧ r2.pauseMetadata = run.pauseMetadata) := by
  refine ⟨{ runs := saveRun st.runs { run with status := FlowRunStatus.RUNNING },
            queue := st.queue ++
              [{ flowRunId := run.id, payload := payload,
                 synchronousHandlerId :=
                   some (returnHandlerId env.serverId run.pauseMetadata requestId),
                 httpRequestId := requestId, executionType := et,
                 progressUpdateType := put }] },
         addToQueue_resume_ok env st flowRunId requestId payload put et run fv fl
           hrun hfv hfl hm, ⟨_, rfl⟩, ?_, ?_⟩
  · exact findRunById_saveRun { run with status := FlowRunStatus.RUNNING }
      (by simpa using findRunById_id flowRunId st.runs run hrun) hrun
  · intro r2 h2
    have hsaved : findRunById
        (saveRun st.runs { run with status := FlowRunStatus.RUNNING }) flowRunId =
        some { run with status := FlowRunStatus.RUNNING } :=
      findRunById_saveRun { run with status := FlowRunStatus.RUNNING }
        (by simpa using findRunById_id flowRunId st.runs run hrun) hrun
    rw [hsaved] at h2
    cases h2
    exact ⟨rfl, rfl⟩

/-- Witness for the amended C2 at the concrete paused run. -/
theorem c2_resume_keeps_pauseMetadata_witness :
    ∃ st2 : EngineState,
      addToQueue collabExample pausedStateExample "r1" (some "abc") none
        ProgressUpdateType.NONE ExecutionType.RESUME = .ok st2 ∧
      (∃ job : QueueJob, st2.queue = pausedStateExample.queue ++ [job]) ∧
      findRunById st2.runs "r1" =
        some { pausedRunExample with status := FlowRunStatus.RUNNING } ∧
      (∀ r2 : FlowRun, findRunById st2.runs "r1" = some r2 →
        r2.status = FlowRunStatus.RUNNING ∧
        r2.pauseMetadata = pausedRunExample.pauseMetadata) :=
  c2_resume_keeps_pauseMetadata collabExample pausedStateExample "r1" (some "abc") none
    ProgressUpdateType.NONE ExecutionType.RESUME pausedRunExample
    { id := "v1", flowId := "f1", displayName := "Order flow" }
    { id := "f1", projectId := "p1" }
    (by decide) (by decide) (by decide) (by decide)

/-- C3: `returnHandlerId` yields the handler id stored in the pause
metadata only for a WEBHOOK-typed pause whose stored request id equals
the supplied one (the stored handler id being present and non-empty, as
the source tests its truthiness); in every other case — no pause
metadata, a DELAY-typed pause, or a mismatched request id — it yields the
current process's own handler id. -/
theorem c3_returnHandlerId_routing
    (serverId : String) (pm : Option PauseMetadata) (req : Option String) :
    (∀ rid : String, ∀ hid : Option String,
       pm = some (PauseMetadata.webhook rid hid) → req = some rid →
       ∀ h : String, hid = some h → h ≠ "" →
       returnHandlerId serverId pm req = h) ∧
    ((∀ rid : String, ∀ hid : Option String,
        pm = some (PauseMetadata.webhook rid hid) → req ≠ some rid) →
      returnHandlerId serverId pm req = serverId) := by
  constructor
  · intro rid hid hpm hreq h hh hne
    subst hpm hreq hh
    have hb : ((some rid : Option String) == some rid) = true := by simp
    have ht : strTruthy (some h) = true := by
      simp only [strTruthy, Bool.not_eq_true']
      exact Bool.eq_false_iff.mpr (fun hc => hne ((String.isEmpty_iff h).mp hc))
    simp [returnHandlerId, hb, ht]
  · intro hmis
    match pm with
    | none => simp [returnHandlerId]
    | some (PauseMetadata.delay t) => simp [returnHandlerId]
    | some (PauseMetadata.webhook rid hid) =>
      have : req ≠ some rid := hmis rid hid rfl
      have hb : (req == some rid) = false := by
        simpa [beq_iff_eq] using this
      simp [returnHandlerId, hb]

/-- Witness for C3: matching WEBHOOK pause routes to the stored handler;
DELAY pause and mismatched request ids route to the server's own id. -/
theorem c3_returnHandlerId_routing_witness :
    returnHandlerId "srv" (some (PauseMetadata.webhook "abc" (some "h7"))) (some "abc") = "h7" ∧
    returnHandlerId "srv" (some (PauseMetadata.delay "t")) (some "abc") = "srv" ∧
    returnHandlerId "srv" (some (PauseMetadata.webhook "abc" (some "h7"))) (some "xyz") = "srv" ∧
    returnHandlerId "srv" none (some "abc") = "srv" := by
  refine ⟨?_, ?_, ?_, ?_⟩
  · exact (c3_returnHandlerId_routing "srv" (some (PauseMetadata.webhook "abc" (some "h7")))
      (some "abc")).1 "abc" (some "h7") rfl rfl "h7" rfl (by decide)
  · exact (c3_returnHandlerId_routing "srv" (some (PauseMetadata.delay "t"))
      (some "abc")).2 (by intro rid hid hpm; simp at hpm)
  · exact (c3_returnHandlerId_routing "srv" (some (PauseMetadata.webhook "abc" (some "h7")))
      (some "xyz")).2 (by intro rid hid hpm; cases hpm; decide)
  · exact (c3_returnHandlerId_routing "srv" none (some "abc")).2
      (by intro rid hid hpm; simp at hpm)

/-- Trigger strategies (`TriggerStrategy`). -/
inductive TriggerStrategy
  | POLLING
  | WEBHOOK
  | APP_WEBHOOK
  deriving DecidableEq, Repr

/-- App listener registered through `context.app.createListeners`. -/
structure Listener where
  events : List String
  identifierValue : String
  identifierKey : String
  deriving DecidableEq, Repr

/-- The request object a hook passes to `setSchedule` (`ScheduleOptions`
with optional timezone and failure count before defaulting). -/
structure ScheduleRequest where
  cronExpression : String
  timezone : Option String
  failureCount : Option Nat
  deriving DecidableEq, Repr

/-- The schedule recorded by a successful `setSchedule` call. -/
structure ScheduleOptions where
  cronExpression : String
  timezone : String
  failureCount : Nat
  deriving DecidableEq, Repr

/-- Splits a character list on a separator; structurally recursive so
that concrete cron strings evaluate inside the kernel. -/
def splitChars (sep : Char) : List Char → List (List Char)
  | [] => [[]]
  | c :: cs =>
    match splitChars sep cs with
    | [] => if c == sep then [[], []] else [[c]]
    | g :: gs => if c == sep then [] :: g :: gs else (c :: g) :: gs

/-- Parses a non-empty all-digit token into its numeric value. -/
def digitsToNat : Nat → List Char → Option Nat
  | acc, [] => some acc
  | acc, c :: cs =>
    if c.isDigit then digitsToNat (acc * 10 + (c.toNat - 48)) cs else none

/-- Decides whether a token is a non-empty digit string and parses it. -/
def parseCronNat (s : List Char) : Option Nat :=
  match s with
  | [] => none
  | _ => digitsToNat 0 s

/-- A base element of a cron field: a wildcard, a single value within the
field's bounds, or an in-bounds ascending range. -/
def validCronBase (lo hi : Nat) (s : List Char) : Bool :=
  if s == ['*'] then true
  else
    match splitChars '-' s with
    | [a] =>
      match parseCronNat a with
      | some n => decide (lo ≤ n) && decide (n ≤ hi)
      | none => false
    | [a, b] =>
      match parseCronNat a, parseCronNat b with
      | some x, some y =>
        decide (lo ≤ x) && decide (x ≤ hi) && decide (lo ≤ y) && decide (y ≤ hi) &&
          decide (x ≤ y)
      | _, _ => false
    | _ => false

/-- A cron field element with an optional positive step suffix. -/
def validCronElement (lo hi : Nat) (s : List Char) : Bool :=
  match splitChars '/' s with
  | [b] => validCronBase lo hi b
  | [b, st] =>
    validCronBase lo hi b &&
      (match parseCronNat st with
       | some n => decide (0 < n)
       | none => false)
  | _ => false

/-- A cron field: a non-empty comma-separated list of valid elements. -/
def validCronField (lo hi : Nat) (s : List Char) : Bool :=
  let parts := splitChars ',' s
  !parts.isEmpty && parts.all (validCronElement lo hi)

/-- Modelled from the spec: validity of a cron expression is decided by
the external `cron-validator` collaborator (`isValidCron`), which is not
part of this repository.  Modelled as the standard five-field minute /
hour / day-of-month / month / day-of-week check the spec describes
(ScheduleOptions are "validated against cron rules before acceptance"). -/
def isValidCron (s : String) : Bool :=
  match splitChars ' ' s.data with
  | [m, h, dom, mon, dow] =>
    validCronField 0 59 m && validCronField 0 23 h && validCronField 1 31 dom &&
      validCronField 1 12 mon && validCronField 0 6 dow
  | _ => false

example : isValidCron "0 * * * *" = true := by decide

example : isValidCron "not-a-cron" = false := by decide

example : isValidCron "*/5 0-12 1,15 * 3" = true := by decide

example : isValidCron "61 * * * *" = false := by decide

/-- Errors the trigger hook engine raises to its caller. -/
inductive EngineError
  | invalidCronExpression (expr : String)
  deriving DecidableEq, Repr

/-- Mutable context accumulated while a hook runs: the listeners pushed
by `createListeners` and the schedule recorded by `setSchedule`. -/
structure HookContextState where
  appListeners : List Listener
  scheduleOptions : Option ScheduleOptions
  deriving DecidableEq, Repr

/-- Embeds the `setSchedule` capability: reject the request with an
invalid-cron error when the expression does not validate, otherwise
record the schedule, defaulting timezone to UTC and failure count to 0. -/
def setSchedule (st : HookContextState) (request : ScheduleRequest) :
    Except EngineError HookContextState :=
  if !isValidCron request.cronExpression then
    .error (.invalidCronExpression request.cronExpression)
  else
    let sched : ScheduleOptions :=
      { cronExpression := request.cronExpression,
        timezone := request.timezone.getD "UTC",
        failureCount := request.failureCount.getD 0 }
    .ok { st with scheduleOptions := some sched }

/-- Embeds the `app.createListeners` capability: push one listener. -/
def createListeners (st : HookContextState) (l : Listener) : HookContextState :=
  { st with appListeners := st.appListeners ++ [l] }

/-- One capability invocation a trigger's enable routine may make against
the context object. -/
inductive HookCall
  | createListeners (l : Listener)
  | setSchedule (r : ScheduleRequest)
  deriving DecidableEq, Repr

/-- Applies one capability invocation to the context state. -/
def applyHookCall (st : HookContextState) : HookCall → Except EngineError HookContextState
  | .createListeners l => .ok (createListeners st l)
  | .setSchedule r => setSchedule st r

/-- Runs a trigger hook routine, modelled as the sequence of capability
invocations it makes; the first failing call aborts the routine. -/
def runHookCalls : HookContextState → List HookCall → Except EngineError HookContextState
  | st, [] => .ok st
  | st, c :: cs =>
    match applyHookCall st c with
    | .error e => .error e
    | .ok st2 => runHookCalls st2 cs

/-- Result of the ON_ENABLE arm of `executeTrigger`. -/
structure OnEnableResult where
  listeners : List Listener
  scheduleOptions : Option ScheduleOptions
  deriving DecidableEq, Repr

/-- Embeds the ON_ENABLE arm of `triggerHelper.executeTrigger`: run the
trigger's enable routine against a fresh context, then return the
collected listeners, exposing the recorded schedule only when the
trigger's strategy is POLLING. -/
def executeTriggerOnEnable (triggerType : TriggerStrategy) (onEnableCalls : List HookCall) :
    Except EngineError OnEnableResult :=
  match runHookCalls { appListeners := [], scheduleOptions := none } onEnableCalls with
  | .error e => .error e
  | .ok st =>
    .ok { listeners := st.appListeners,
          scheduleOptions :=
            if triggerType = TriggerStrategy.POLLING then st.scheduleOptions else none }

/-- Recognizes a `setSchedule` capability invocation. -/
def isSetScheduleCall : HookCall → Bool
  | .setSchedule _ => true
  | .createListeners _ => false

theorem runHookCalls_schedule_isSome (calls : List HookCall) :
    ∀ (st0 st : HookContextState), runHookCalls st0 calls = .ok st →
      st.scheduleOptions.isSome =
        (st0.scheduleOptions.isSome || calls.any isSetScheduleCall) := by
  induction calls with
  | nil =>
    intro st0 st h
    simp only [runHookCalls] at h
    cases h
    simp
  | cons c cs ih =>
    intro st0 st h
    simp only [runHookCalls] at h
    cases c with
    | createListeners l =>
      simp only [applyHookCall] at h
      have h2 := ih (createListeners st0 l) st h
      simp only [createListeners] at h2
      simp [h2, isSetScheduleCall, List.any_cons]
    | setSchedule r =>
      simp only [applyHookCall, setSchedule] at h
      cases hv : isValidCron r.cronExpression with
      | false => simp [hv] at h
      | true =>
        simp only [hv, Bool.not_true, Bool.false_eq_true, if_false] at h
        have h2 := ih _ st h
        simp only [Option.isSome_some] at h2
        simp [h2, isSetScheduleCall, List.any_cons]

/-- C4: a successful ON_ENABLE returns a schedule in its result exactly
when the trigger's strategy is POLLING and the enable routine invoked
`setSchedule`; for WEBHOOK and APP_WEBHOOK triggers the returned schedule
is always absent even if `setSchedule` was invoked. -/
theorem c4_onEnable_schedule_iff (triggerType : TriggerStrategy)
    (calls : List HookCall) (res : OnEnableResult)
    (h : executeTriggerOnEnable triggerType calls = .ok res) :
    res.scheduleOptions.isSome = true ↔
      (triggerType = TriggerStrategy.POLLING ∧
        ∃ r : ScheduleRequest, HookCall.setSchedule r ∈ calls) := by
  unfold executeTriggerOnEnable at h
  cases hrun : runHookCalls { appListeners := [], scheduleOptions := none } calls with
  | error e => rw [hrun] at h; cases h
  | ok st =>
    rw [hrun] at h
    cases h
    have hs := runHookCalls_schedule_isSome calls _ st hrun
    simp only [Option.isSome_none, Bool.false_or] at hs
    by_cases hty : triggerType = TriggerStrategy.POLLING
    · simp only [hty, if_true]
      rw [hs]
      simp only [List.any_eq_true, true_and]
      constructor
      · rintro ⟨c, hc, hset⟩
        cases c with
        | createListeners l => simp [isSetScheduleCall] at hset
        | setSchedule r => exact ⟨r, hc⟩
      · rintro ⟨r, hr⟩
        exact ⟨HookCall.setSchedule r, hr, rfl⟩
    · simp [hty]

/-- Witness for C4: a POLLING trigger whose enable routine sets one
schedule gets it back; a WEBHOOK trigger with the same routine gets
none. -/
theorem c4_onEnable_schedule_iff_witness :
    ((some (ScheduleOptions.mk "0 * * * *" "UTC" 0)).isSome = true ↔
      (TriggerStrategy.POLLING = TriggerStrategy.POLLING ∧
        ∃ r : ScheduleRequest, HookCall.setSchedule r ∈
          [HookCall.setSchedule (ScheduleRequest.mk "0 * * * *" none none)])) ∧
    ((none : Option ScheduleOptions).isSome = true ↔
      (TriggerStrategy.WEBHOOK = TriggerStrategy.POLLING ∧
        ∃ r : ScheduleRequest, HookCall.setSchedule r ∈
          [HookCall.setSchedule (ScheduleRequest.mk "0 * * * *" none none)])) := by
  constructor
  · exact c4_onEnable_schedule_iff TriggerStrategy.POLLING
      [HookCall.setSchedule (ScheduleRequest.mk "0 * * * *" none none)]
      (OnEnableResult.mk [] (some (ScheduleOptions.mk "0 * * * *" "UTC" 0))) rfl
  · exact c4_onEnable_schedule_iff TriggerStrategy.WEBHOOK
      [HookCall.setSchedule (ScheduleRequest.mk "0 * * * *" none none)]
      (OnEnableResult.mk [] none) rfl

/-- C5: `setSchedule` rejects an unparseable cron expression with a
validation error (the enable routine aborts, recording no schedule),
and accepts a valid one, defaulting the timezone to UTC and the failure
count to 0 when not supplied. -/
theorem c5_setSchedule_validation (st : HookContextState) (tz : Option String)
    (fc : Option Nat) :
    (isValidCron "not-a-cron" = false ∧
      setSchedule st (ScheduleRequest.mk "not-a-cron" tz fc) =
        .error (.invalidCronExpression "not-a-cron") ∧
      runHookCalls st [HookCall.setSchedule (ScheduleRequest.mk "not-a-cron" tz fc)] =
        .error (.invalidCronExpression "not-a-cron")) ∧
    (isValidCron "0 * * * *" = true ∧
      setSchedule st (ScheduleRequest.mk "0 * * * *" none none) =
        .ok { st with scheduleOptions := some (ScheduleOptions.mk "0 * * * *" "UTC" 0) }) := by
  have hbad : isValidCron "not-a-cron" = false := by decide
  have hgood : isValidCron "0 * * * *" = true := by decide
  refine ⟨⟨hbad, ?_, ?_⟩, hgood, ?_⟩
  · simp [setSchedule, hbad]
  · simp [runHookCalls, applyHookCall, setSchedule, hbad]
  · simp [setSchedule, hgood]

/-- Behavior of the piece's event-verification capability
(`piece.events.verify`): it returns a value (possibly `undefined`,
modelled as `none`) or throws. -/
inductive VerifyBehavior
  | returns (value : Option Bool)
  | throws
  deriving DecidableEq, Repr

/-- What the trigger's run routine returns: an array of emitted payloads
or a non-array value, remembered by its `typeof` name. -/
inductive RunReturn
  | items (xs : List String)
  | nonArray (typeName : String)
  deriving DecidableEq, Repr

/-- The RUN-arm result (`success`, optional `message`, `output`). -/
structure TriggerRunResult where
  success : Bool
  message : Option String
  output : List String
  deriving DecidableEq, Repr

/-- Errors the RUN arm raises to its caller as hard exceptions. -/
inductive RunError
  | appWebhookUrlMissing (pieceName : String)
  | webhookSecretMissing (pieceName : String)
  | runReturnNotArray (typeName : String)
  deriving DecidableEq, Repr

/-- Dispatch to the trigger's run routine: a non-array return value is a
hard type-contract error naming the offending `typeof`; an array return
yields a successful result carrying it.  The boolean records that the
run routine was invoked. -/
def dispatchRun : RunReturn → Except RunError (TriggerRunResult × Bool)
  | .nonArray t => .error (.runReturnNotArray t)
  | .items xs => .ok ({ success := true, message := none, output := xs }, true)

/-- Embeds the RUN arm of `triggerHelper.executeTrigger`: for an
APP_WEBHOOK trigger the app-webhook URL and webhook secret must be
truthy, then the payload is verified via the piece's optional events
capability — a strict-false verification short-circuits with an
unsuccessful result and a throwing verifier is caught into an analogous
result, in both cases without invoking the run routine (second component
`false`); otherwise the run routine is dispatched. -/
def executeTriggerRun (pieceName : String) (triggerType : TriggerStrategy)
    (appWebhookUrl webhookSecret : Option String)
    (pieceEvents : Option VerifyBehavior) (runReturn : RunReturn) :
    Except RunError (TriggerRunResult × Bool) :=
  if triggerType = TriggerStrategy.APP_WEBHOOK then
    if !strTruthy appWebhookUrl then .error (.appWebhookUrlMissing pieceName)
    else if !strTruthy webhookSecret then .error (.webhookSecretMissing pieceName)
    else
      match pieceEvents with
      | some VerifyBehavior.throws =>
        .ok ({ success := false, message := some "Error while verifying webhook",
               output := [] }, false)
      | some (VerifyBehavior.returns v) =>
        if v = some false then
          .ok ({ success := false, message := some "Webhook is not verified",
                 output := [] }, false)
        else dispatchRun runReturn
      | none => dispatchRun runReturn
  else dispatchRun runReturn

/-- The verification gate of the RUN arm lets execution reach the run
routine: the trigger is not APP_WEBHOOK, or its URL and secret are truthy
and the events capability neither throws nor returns strict `false`. -/
def reachesRun (triggerType : TriggerStrategy)
    (appWebhookUrl webhookSecret : Option String)
    (pieceEvents : Option VerifyBehavior) : Bool :=
  if triggerType = TriggerStrategy.APP_WEBHOOK then
    strTruthy appWebhookUrl && strTruthy webhookSecret &&
      (match pieceEvents with
       | some VerifyBehavior.throws => false
       | some (VerifyBehavior.returns v) => !(v == some false)
       | none => true)
  else true

/-- C6: for a RUN hook on an APP_WEBHOOK trigger with URL and secret
supplied, a strict-false verification yields the unsuccessful
"Webhook is not verified" result with empty output and the run routine
is never invoked; a throwing verifier is caught into the analogous
unsuccessful result — in both cases the failure is returned as data, not
raised. -/
theorem c6_appWebhook_verification_failure
    (pieceName url secret : String) (runReturn : RunReturn)
    (hurl : url ≠ "") (hsecret : secret ≠ "") :
    (executeTriggerRun pieceName TriggerStrategy.APP_WEBHOOK (some url) (some secret)
        (some (VerifyBehavior.returns (some false))) runReturn =
      .ok ({ success := false, message := some "Webhook is not verified",
             output := [] }, false)) ∧
    (executeTriggerRun pieceName TriggerStrategy.APP_WEBHOOK (some url) (some secret)
        (some VerifyBehavior.throws) runReturn =
      .ok ({ success := false, message := some "Error while verifying webhook",
             output := [] }, false)) := by
  have hu : strTruthy (some url) = true := by
    simp only [strTruthy, Bool.not_eq_true']
    exact Bool.eq_false_iff.mpr (fun hc => hurl ((String.isEmpty_iff url).mp hc))
  have hs : strTruthy (some secret) = true := by
    simp only [strTruthy, Bool.not_eq_true']
    exact Bool.eq_false_iff.mpr (fun hc => hsecret ((String.isEmpty_iff secret).mp hc))
  constructor
  · simp [executeTriggerRun, hu, hs]
  · simp [executeTriggerRun, hu, hs]

/-- Witness for C6 at a concrete URL and secret. -/
theorem c6_appWebhook_verification_failure_witness :
    (executeTriggerRun "slack" TriggerStrategy.APP_WEBHOOK (some "https://wh") (some "s3cret")
        (some (VerifyBehavior.returns (some false))) (RunReturn.items ["a"]) =
      .ok ({ success := false, message := some "Webhook is not verified",
             output := [] }, false)) ∧
    (executeTriggerRun "slack" TriggerStrategy.APP_WEBHOOK (some "https://wh") (some "s3cret")
        (some VerifyBehavior.throws) (RunReturn.items ["a"]) =
      .ok ({ success := false, message := some "Error while verifying webhook",
             output := [] }, false)) :=
  c6_appWebhook_verification_failure "slack" "https://wh" "s3cret" (RunReturn.items ["a"])
    (by decide) (by decide)

/-- C7: whenever the verification gate lets the run routine be invoked,
a non-array return value fails the RUN hook with a type-contract error
naming the offending type, while an array return (the empty array
included) yields a successful result carrying exactly that array. -/
theorem c7_run_return_contract
    (pieceName : String) (triggerType : TriggerStrategy)
    (appWebhookUrl webhookSecret : Option String)
    (pieceEvents : Option VerifyBehavior)
    (h : reachesRun triggerType appWebhookUrl webhookSecret pieceEvents = true) :
    (∀ t : String,
      executeTriggerRun pieceName triggerType appWebhookUrl webhookSecret pieceEvents
        (RunReturn.nonArray t) = .error (.runReturnNotArray t)) ∧
    (∀ xs : List String,
      executeTriggerRun pieceName triggerType appWebhookUrl webhookSecret pieceEvents
        (RunReturn.items xs) =
        .ok ({ success := true, message := none, output := xs }, true)) := by
  by_cases hty : triggerType = TriggerStrategy.APP_WEBHOOK
  · subst hty
    simp only [reachesRun, if_true, Bool.and_eq_true] at h
    obtain ⟨⟨hu, hs⟩, hev⟩ := h
    constructor
    · intro t
      simp only [executeTriggerRun, if_true, hu, hs, Bool.not_true, Bool.false_eq_true,
        if_false]
      match pieceEvents with
      | some VerifyBehavior.throws => simp at hev
      | some (VerifyBehavior.returns v) =>
        have hv : (v == some false) = false := by
          simpa using hev
        have hv2 : ¬ v = some false := by
          simpa [beq_iff_eq] using hv
        simp [hv2, dispatchRun]
      | none => simp [dispatchRun]
    · intro xs
      simp only [executeTriggerRun, if_true, hu, hs, Bool.not_true, Bool.false_eq_true,
        if_false]
      match pieceEvents with
      | some VerifyBehavior.throws => simp at hev
      | some (VerifyBehavior.returns v) =>
        have hv2 : ¬ v = some false := by
          simpa [beq_iff_eq] using hev
        simp [hv2, dispatchRun]
      | none => simp [dispatchRun]
  · constructor
    · intro t; simp [executeTriggerRun, hty, dispatchRun]
    · intro xs; simp [executeTriggerRun, hty, dispatchRun]

/-- Witness for C7 on a plain WEBHOOK trigger: a non-array return of
typeof "object" errors, and an empty-array return succeeds with empty
output. -/
theorem c7_run_return_contract_witness :
    (executeTriggerRun "github" TriggerStrategy.WEBHOOK none none none
        (RunReturn.nonArray "object") = .error (.runReturnNotArray "object")) ∧
    (executeTriggerRun "github" TriggerStrategy.WEBHOOK none none none
        (RunReturn.items []) =
      .ok ({ success := true, message := none, output := [] }, true)) := by
  have h := c7_run_return_contract "github" TriggerStrategy.WEBHOOK none none none
    (by decide)
  exact ⟨h.1 "object", h.2 []⟩

/-- C10: for a RUN hook on an APP_WEBHOOK trigger whose loaded piece has
no events capability, the optional-chained verification yields
`undefined` rather than `false`, so the verification step is skipped and
the run routine is dispatched exactly as if verification had
succeeded. -/
theorem c10_missing_events_skips_verification
    (pieceName url secret : String) (runReturn : RunReturn)
    (hurl : url ≠ "") (hsecret : secret ≠ "") :
    (executeTriggerRun pieceName TriggerStrategy.APP_WEBHOOK (some url) (some secret)
        none runReturn =
      executeTriggerRun pieceName TriggerStrategy.APP_WEBHOOK (some url) (some secret)
        (some (VerifyBehavior.returns (some true))) runReturn) ∧
    (∀ xs : List String, runReturn = RunReturn.items xs →
      executeTriggerRun pieceName TriggerStrategy.APP_WEBHOOK (some url) (some secret)
        none runReturn =
        .ok ({ success := true, message := none, output := xs }, true)) := by
  have hu : strTruthy (some url) = true := by
    simp only [strTruthy, Bool.not_eq_true']
    exact Bool.eq_false_iff.mpr (fun hc => hurl ((String.isEmpty_iff url).mp hc))
  have hs : strTruthy (some secret) = true := by
    simp only [strTruthy, Bool.not_eq_true']
    exact Bool.eq_false_iff.mpr (fun hc => hsecret ((String.isEmpty_iff secret).mp hc))
  constructor
  · simp [executeTriggerRun, hu, hs]
  · intro xs hxs
    subst hxs
    simp [executeTriggerRun, hu, hs, dispatchRun]

/-- Witness for C10 at a concrete piece configuration. -/
theorem c10_missing_events_skips_verification_witness :
    (executeTriggerRun "stripe" TriggerStrategy.APP_WEBHOOK (some "https://wh") (some "sec")
        none (RunReturn.items ["evt1", "evt2"]) =
      executeTriggerRun "stripe" TriggerStrategy.APP_WEBHOOK (some "https://wh") (some "sec")
        (some (VerifyBehavior.returns (some true))) (RunReturn.items ["evt1", "evt2"])) ∧
    (executeTriggerRun "stripe" TriggerStrategy.APP_WEBHOOK (some "https://wh") (some "sec")
        none (RunReturn.items ["evt1", "evt2"]) =
      .ok ({ success := true, message := none, output := ["evt1", "evt2"] }, true)) := by
  have h := c10_missing_events_skips_verification "stripe" "https://wh" "sec"
    (RunReturn.items ["evt1", "evt2"]) (by decide) (by decide)
  exact ⟨h.1, h.2 ["evt1", "evt2"] rfl⟩

/-- The serialized step trace handed to `updateStatus`
(`ExecutionState`): a mapping from step name to recorded output. -/
structure ExecutionState where
  steps : List (String × String)
  deriving DecidableEq, Repr

/-- Modelled from the spec: the external `logSerializer` collaborator
(Execution Log Store, "serialize(executionState) -> bytes") is not part
of this repository; its output is modelled as a textual rendering of the
step mapping, measured in UTF-8 bytes. -/
def serializeExecutionState (es : ExecutionState) : String :=
  String.intercalate ";" (es.steps.map (fun s => s.1 ++ "=" ++ s.2))

/-- One artifact in the blob store (`fileService`), with the compression
and file-type tags `updateLogs` passes to `fileService.save`. -/
structure FileRecord where
  fileId : String
  projectId : String
  data : String
  ftype : String
  compression : String
  deriving DecidableEq, Repr

/-- State of the log store: the run records, the blob store, and the
exception-tracking sink (`exceptionHandler.handle`) as the list of
escalated messages. -/
structure LogStoreState where
  runs : List FlowRun
  files : List FileRecord
  escalated : List String
  deriving DecidableEq, Repr

/-- Embeds `fileService.save`: overwrite the artifact with the same id
when present, append otherwise. -/
def saveFile (files : List FileRecord) (f : FileRecord) : List FileRecord :=
  if files.any (fun x => x.fileId == f.fileId) then
    files.map (fun x => if x.fileId == f.fileId then f else x)
  else
    files ++ [f]

/-- Errors thrown out of `updateLogs` and hence out of `updateStatus`. -/
inductive UpdateError
  | runNotFound (id : String)
  | logSizeExceeded (maxSize : Nat)
  deriving DecidableEq, Repr

/-- The message built for an oversized execution log. -/
def logSizeMessage (maxLogSize : Nat) : String :=
  "Execution Output is too large, maximum size is " ++ toString maxLogSize

/-- Embeds `updateLogs`: a nil execution state persists nothing; else the
run is loaded (`findOneByOrFail`), the state serialized, an oversized
serialization is escalated to the exception sink and thrown, and
otherwise the artifact is written under the run's existing `logsFileId`
when it has one, under a fresh id only when it has none.  The returned
state carries the store and sink effects alongside the thrown or
returned value. -/
def updateLogs (maxLogSize : Nat) (freshFileId : String) (st : LogStoreState)
    (flowRunId projectId : String) (executionState : Option ExecutionState) :
    LogStoreState × Except UpdateError (Option String) :=
  match executionState with
  | none => (st, .ok none)
  | some es =>
    match findRunById st.runs flowRunId with
    | none => (st, .error (.runNotFound flowRunId))
    | some flowRun =>
      let serializedLogs := serializeExecutionState es
      if serializedLogs.utf8ByteSize > maxLogSize then
        ({ st with escalated := st.escalated ++ [logSizeMessage maxLogSize] },
         .error (.logSizeExceeded maxLogSize))
      else
        let fileId := flowRun.logsFileId.getD freshFileId
        let artifact := FileRecord.mk fileId projectId serializedLogs "FLOW_RUN_LOG" "GZIP"
        ({ st with files := saveFile st.files artifact }, .ok (some fileId))

/-- Parameters of `flowRunService.updateStatus` (`FinishParams`). -/
structure FinishParams where
  flowRunId : String
  projectId : String
  status : FlowRunStatus
  tasks : Nat
  duration : Option Nat
  executionState : Option ExecutionState
  tags : List String
  deriving DecidableEq, Repr

/-- Embeds `flowRunService.updateStatus`: persist the execution log via
`updateLogs` (a thrown size-limit or not-found error aborts the whole
call before any record update), then update the run record — status,
tasks, duration (floored, and skipped when falsy), `logsFileId` when one
was produced, cleared termination reason, tags and finish time — and
reload the record.  The merge of deserialized steps into the returned
run (`getOnePopulatedOrThrow`) is a read-only projection and is not
modelled. -/
def updateStatus (maxLogSize : Nat) (freshFileId now : String) (st : LogStoreState)
    (p : FinishParams) : LogStoreState × Except UpdateError FlowRun :=
  match updateLogs maxLogSize freshFileId st p.flowRunId p.projectId p.executionState with
  | (st1, .error e) => (st1, .error e)
  | (st1, .ok logFileId) =>
    let upd := fun (run : FlowRun) =>
      { run with
          status := p.status,
          tasks := p.tasks,
          duration := match p.duration with
            | some d => if d == 0 then run.duration else some d
            | none => run.duration,
          logsFileId := match logFileId with
            | some f => some f
            | none => run.logsFileId,
          terminationReason := none,
          tags := p.tags,
          finishTime := some now }
    let st2 : LogStoreState :=
      { st1 with runs := st1.runs.map (fun run =>
          if run.id == p.flowRunId then upd run else run) }
    match findRunById st2.runs p.flowRunId with
    | none => (st2, .error (.runNotFound p.flowRunId))
    | some run => (st2, .ok run)

/-- The artifact `updateLogs` writes for a run's execution log. -/
def logArtifact (fileId projectId data : String) : FileRecord :=
  FileRecord.mk fileId projectId data "FLOW_RUN_LOG" "GZIP"

/-- C8: when the serialized execution-state trace exceeds the configured
maximum log size, `updateStatus` fails with the size-limit error after
escalating it to the exception-tracking sink, and the run store and blob
store are untouched: the run's previous `logsFileId` is unchanged and no
truncated log is written. -/
theorem c8_oversize_log_aborts_updateStatus
    (maxLogSize : Nat) (freshFileId now : String) (st : LogStoreState)
    (p : FinishParams) (es : ExecutionState) (run : FlowRun)
    (hes : p.executionState = some es)
    (hrun : findRunById st.runs p.flowRunId = some run)
    (hsize : (serializeExecutionState es).utf8ByteSize > maxLogSize) :
    updateStatus maxLogSize freshFileId now st p =
      ({ st with escalated := st.escalated ++ [logSizeMessage maxLogSize] },
       .error (.logSizeExceeded maxLogSize)) ∧
    (updateStatus maxLogSize freshFileId now st p).1.runs = st.runs ∧
    (updateStatus maxLogSize freshFileId now st p).1.files = st.files ∧
    (∀ r2 : FlowRun,
      findRunById (updateStatus maxLogSize freshFileId now st p).1.runs p.flowRunId =
        some r2 → r2.logsFileId = run.logsFileId) := by
  have h1 : updateStatus maxLogSize freshFileId now st p =
      ({ st with escalated := st.escalated ++ [logSizeMessage maxLogSize] },
       .error (.logSizeExceeded maxLogSize)) := by
    unfold updateStatus
    unfold updateLogs
    rw [hes, hrun]
    simp only [if_pos hsize]
  refine ⟨h1, ?_, ?_, ?_⟩
  · rw [h1]
  · rw [h1]
  · intro r2 h2
    rw [h1] at h2
    simp only at h2
    rw [hrun] at h2
    cases h2
    rfl

/-- Concrete run owning no log artifact yet, parked in a store with an
unrelated artifact, used to exercise the log-store paths. -/
def finishedRunExample : FlowRun :=
  { id := "r9", projectId := "p1", flowId := "f1", flowVersionId := "v1",
    environment := .PRODUCTION, flowDisplayName := "Order flow",
    startTime := "t0", status := .RUNNING, pauseMetadata := none,
    logsFileId := some "log-1", tasks := 2, duration := none, tags := [],
    terminationReason := none, finishTime := none }

/-- Concrete log-store state holding the finished run. -/
def logStoreExample : LogStoreState :=
  { runs := [finishedRunExample], files := [logArtifact "log-1" "p1" "old"],
    escalated := [] }

/-- Witness for C8: a 10-byte serialized trace against a 5-byte limit
fails the finish call, escalates, and leaves the stores untouched. -/
theorem c8_oversize_log_aborts_updateStatus_witness :
    updateStatus 5 "fresh-file" "t2" logStoreExample
      (FinishParams.mk "r9" "p1" FlowRunStatus.SUCCEEDED 4 (some 120)
        (some (ExecutionState.mk [("step1", "out1")])) []) =
      ({ logStoreExample with escalated := logStoreExample.escalated ++ [logSizeMessage 5] },
       .error (.logSizeExceeded 5)) ∧
    (updateStatus 5 "fresh-file" "t2" logStoreExample
      (FinishParams.mk "r9" "p1" FlowRunStatus.SUCCEEDED 4 (some 120)
        (some (ExecutionState.mk [("step1", "out1")])) [])).1.runs = logStoreExample.runs ∧
    (updateStatus 5 "fresh-file" "t2" logStoreExample
      (FinishParams.mk "r9" "p1" FlowRunStatus.SUCCEEDED 4 (some 120)
        (some (ExecutionState.mk [("step1", "out1")])) [])).1.files = logStoreExample.files ∧
    (∀ r2 : FlowRun,
      findRunById (updateStatus 5 "fresh-file" "t2" logStoreExample
        (FinishParams.mk "r9" "p1" FlowRunStatus.SUCCEEDED 4 (some 120)
          (some (ExecutionState.mk [("step1", "out1")])) [])).1.runs "r9" =
        some r2 → r2.logsFileId = finishedRunExample.logsFileId) :=
  c8_oversize_log_aborts_updateStatus 5 "fresh-file" "t2" logStoreExample
    (FinishParams.mk "r9" "p1" FlowRunStatus.SUCCEEDED 4 (some 120)
      (some (ExecutionState.mk [("step1", "out1")])) [])
    (ExecutionState.mk [("step1", "out1")]) finishedRunExample
    rfl (by decide) (by decide)

/-- C9: a successful log persistence writes the artifact under the run's
existing `logsFileId` whenever the run already has one, and allocates the
fresh id only when the run has none. -/
theorem c9_logsFileId_stable
    (maxLogSize : Nat) (freshFileId : String) (st : LogStoreState)
    (flowRunId projectId : String) (es : ExecutionState) (run : FlowRun)
    (hrun : findRunById st.runs flowRunId = some run)
    (hsize : ¬ (serializeExecutionState es).utf8ByteSize > maxLogSize) :
    (∀ f : String, run.logsFileId = some f →
      updateLogs maxLogSize freshFileId st flowRunId projectId (some es) =
        ({ st with files :=
                     saveFile st.files (logArtifact f projectId (serializeExecutionState es)) },
         Except.ok (some f))) ∧
    (run.logsFileId = none →
      updateLogs maxLogSize freshFileId st flowRunId projectId (some es) =
        ({ st with files :=
                     saveFile st.files
                       (logArtifact freshFileId projectId (serializeExecutionState es)) },
         Except.ok (some freshFileId))) := by
  constructor
  · intro f hf
    unfold updateLogs
    rw [hrun]
    simp only [if_neg hsize, hf, logArtifact, Option.getD_some]
  · intro hf
    unfold updateLogs
    rw [hrun]
    simp only [if_neg hsize, hf, logArtifact, Option.getD_none]

/-- Witness for C9: the run already owning artifact "log-1" gets its log
rewritten under "log-1", not under the fresh id. -/
theorem c9_logsFileId_stable_witness :
    updateLogs 100 "fresh-file" logStoreExample "r9" "p1"
      (some (ExecutionState.mk [("step1", "out1")])) =
      ({ logStoreExample with files :=
                                 saveFile logStoreExample.files
                                   (logArtifact "log-1" "p1"
                                     (serializeExecutionState
                                       (ExecutionState.mk [("step1", "out1")]))) },
       Except.ok (some "log-1")) :=
  (c9_logsFileId_stable 100 "fresh-file" logStoreExample "r9" "p1"
    (ExecutionState.mk [("step1", "out1")]) finishedRunExample
    (by decide) (by decide)).1 "log-1" rfl
